import Mathlib

/-!
Shallow embedding of the aws-ssm-light CLI (Go) and proofs about its
argument parsing, secret fetching, output formatting and process-level
orchestration.

The embedded program is the flag-enabled variant of main.go kept in
build.sh (the variant defining ShowVersion, ShowUsage, ParseArgs,
App.GetSecret, FormatOutput, NewApp and main).  External collaborators
are abstracted as parameters:
  - the environment variable AWS_REGION is a String parameter, with ""
    standing for "unset or empty" (Go's os.Getenv returns "" when the
    variable is unset);
  - the Secrets Manager client (the SecretsManagerClient interface) is a
    function from GetSecretValueInput to an error-or-output value;
  - config.LoadDefaultConfig + secretsmanager.NewFromConfig are a
    function from Config to an error-or-client value;
  - json.Unmarshal is a function from String to an error-or-parsed value,
    polymorphic in the parsed type (Go's interface left abstract).
Process observables (exit code, stdout text, stderr text) are collected
in ProcResult; the timestamp prefix that Go's log.Fatalf prepends is
elided, the message text is kept.
-/

namespace AwsSsm

/-- Mirrors the Go struct Config: the application configuration holding
the secret identifier and the region (build.sh, ParseArgs's result). -/
structure Config where
  SecretID : String
  Region : String
deriving DecidableEq, Repr

/-- Mirrors secretsmanager.GetSecretValueInput as used by the program:
only the SecretId field is ever set. -/
structure GetSecretValueInput where
  SecretId : String
deriving DecidableEq, Repr

/-- Mirrors secretsmanager.GetSecretValueOutput as used by the program:
only the SecretString field (a nullable string, hence Option) is read. -/
structure GetSecretValueOutput where
  SecretString : Option String
deriving DecidableEq, Repr

/-- Mirrors the SecretsManagerClient interface: one operation taking a
GetSecretValueInput and returning either a transport error (modelled as
its message string) or a GetSecretValueOutput. -/
abbrev SecretsManagerClient := GetSecretValueInput → Except String GetSecretValueOutput

/-- Mirrors the Go struct App holding the client and the configuration. -/
structure App where
  Client : SecretsManagerClient
  Config : AwsSsm.Config

/-- The observable outcome of the Go ParseArgs function.  ParseArgs
either returns (Config, error) to its caller — modelled by the ok,
usageError and configError constructors, the two error constructors
carrying the message built by fmt.Errorf — or terminates the process
itself with exit code 0 after printing version or usage information
(the os.Exit(0) calls in its flag branches), modelled by exitVersion
and exitHelp. -/
inductive ParseResult where
  | exitVersion : ParseResult
  | exitHelp : ParseResult
  | usageError (msg : String) : ParseResult
  | configError (msg : String) : ParseResult
  | ok (cfg : Config) : ParseResult
deriving DecidableEq, Repr

/-- The message of the region configuration error in ParseArgs. -/
def regionErrorMsg : String :=
  "AWS region must be specified either via AWS_REGION environment variable or as second argument"

/-- Translation of the Go ParseArgs(args []string) (Config, error).
awsRegionEnv is the value of os.Getenv("AWS_REGION") ("" when unset).
Go reads args[1] and args[2] after length checks; the list match mirrors
len(args) < 2, the flag comparisons mirror the two flag branches, and
the region is args[2] when len(args) > 2, else the environment value. -/
def ParseArgs (awsRegionEnv : String) (args : List String) : ParseResult :=
  match args with
  | _prog :: arg1 :: rest =>
    if arg1 = "--version" ∨ arg1 = "-v" then ParseResult.exitVersion
    else if arg1 = "--help" ∨ arg1 = "-h" then ParseResult.exitHelp
    else
      let secretID := arg1
      let region := match rest with
        | [] => awsRegionEnv
        | r :: _ => r
      if region = "" then ParseResult.configError regionErrorMsg
      else ParseResult.ok ⟨secretID, region⟩
  | _ => ParseResult.usageError "insufficient arguments"

/-- Translation of the Go method (app *App) GetSecret: builds the input
from the configured secret id, makes one client call, wraps a transport
error, rejects a missing SecretString, and otherwise returns the string. -/
def App.GetSecret (app : App) : Except String String :=
  let input : GetSecretValueInput := ⟨app.Config.SecretID⟩
  match app.Client input with
  | Except.error e => Except.error ("failed to get secret value: " ++ e)
  | Except.ok result =>
    match result.SecretString with
    | none => Except.error "secret does not contain a string value"
    | some s => Except.ok s

/-- The same translation of GetSecret with the single client call-site
made observable: the client call is an action in an arbitrary monad, so
that instrumented clients (for example a call-counting client in a state
monad) can witness how many calls one invocation performs. -/
def GetSecretValueM {m : Type → Type} [Monad m]
    (clientCall : GetSecretValueInput → m (Except String GetSecretValueOutput))
    (cfg : Config) : m (Except String String) := do
  let input : GetSecretValueInput := ⟨cfg.SecretID⟩
  let result ← clientCall input
  match result with
  | Except.error e => pure (Except.error ("failed to get secret value: " ++ e))
  | Except.ok out =>
    match out.SecretString with
    | none => pure (Except.error "secret does not contain a string value")
    | some s => pure (Except.ok s)

/-- A client wrapper that increments a counter on every call and
otherwise answers exactly like the wrapped client. -/
def countedCall (client : SecretsManagerClient) :
    GetSecretValueInput → StateM Nat (Except String GetSecretValueOutput) :=
  fun input => fun n => (client input, n + 1)

/-- Translation of the Go FormatOutput: attempt a JSON parse of the
secret value (json.Unmarshal, abstracted as the unmarshal parameter with
an arbitrary parsed type), and return the original string in both the
error branch and the success branch. -/
def FormatOutput {α : Type} (unmarshal : String → Except String α)
    (secretValue : String) : String :=
  match unmarshal secretValue with
  | Except.error _ => secretValue
  | Except.ok _ => secretValue

/-- The text that the Go ShowVersion prints to standard output, as a
function of the four build-time variables Version, GitCommit, BuildTime
and Maintainer (underscores in the maintainer are displayed as spaces). -/
def ShowVersionText (ver gitCommit buildTime maintainer : String) : String :=
  ("aws-ssm version " ++ ver ++ "\n")
  ++ (if gitCommit ≠ "unknown" then "Git commit: " ++ gitCommit ++ "\n" else "")
  ++ (if buildTime ≠ "unknown" then "Built: " ++ buildTime ++ "\n" else "")
  ++ (if maintainer ≠ "" then
        "Maintainer: " ++ (maintainer.replace "_" " ") ++ "\n"
      else "")

/-- The text that the Go ShowUsage prints to standard error. -/
def ShowUsageText (progName : String) : String :=
  "Usage: " ++ progName ++ " <secret-id> [region]\n"
  ++ "       " ++ progName ++ " --version\n"
  ++ "       " ++ progName ++ " --help\n"
  ++ "\nArguments:\n"
  ++ "  secret-id    AWS Secrets Manager secret ID or ARN\n"
  ++ "  region       AWS region (optional, overrides AWS_REGION)\n"
  ++ "\nOptions:\n"
  ++ "  --version    Show version information\n"
  ++ "  --help       Show this help message\n"
  ++ "\nEnvironment variables:\n"
  ++ "  AWS_REGION: AWS region (can be overridden by second argument)\n"
  ++ "  AWS_ACCESS_KEY_ID: AWS access key\n"
  ++ "  AWS_SECRET_ACCESS_KEY: AWS secret key\n"
  ++ "  AWS_SESSION_TOKEN: Session token (for temporary roles)\n"

/-- Translation of the Go NewApp: load the AWS configuration and build
the client (both steps abstracted as loadClient, since they call the
AWS SDK), wrapping a failure message, and pair the client with the
configuration. -/
def NewApp (loadClient : Config → Except String SecretsManagerClient)
    (cfg : Config) : Except String App :=
  match loadClient cfg with
  | Except.error e => Except.error ("failed to load AWS config: " ++ e)
  | Except.ok client => Except.ok ⟨client, cfg⟩

/-- A client-constructor double whose client always fails with a
transport error (stands for config.LoadDefaultConfig succeeding and the
remote call failing). -/
def errClientLoader : Config → Except String SecretsManagerClient :=
  fun _ => Except.ok (fun _ => Except.error "transport down")

/-- A JSON-parser double that always fails (non-JSON input). -/
def notJsonUnmarshal : String → Except String Unit :=
  fun _ => Except.error "not json"

/-- The process-level observables of one program invocation: exit code,
text written to standard output, text written to standard error. -/
structure ProcResult where
  exitCode : Nat
  stdout : String
  stderr : String
deriving DecidableEq, Repr

/-- Translation of the Go main: parse the arguments (the version/help
branches of ParseArgs print and exit 0 inside ParseArgs; their output is
accounted for here), on the usage error show the usage text on standard
error and exit 1, on any other parse error print it prefixed by
"Error: " and exit 1, then build the app, fetch the secret and print
the formatted value to standard output with fmt.Print (no added
newline), exiting 0; client-construction and fetch failures go through
log.Fatalf (exit 1, message on standard error, timestamp elided). -/
def runMain {α : Type} (ver gitCommit buildTime maintainer awsRegionEnv : String)
    (args : List String)
    (loadClient : Config → Except String SecretsManagerClient)
    (unmarshal : String → Except String α) : ProcResult :=
  let progName := args.headD ""
  match ParseArgs awsRegionEnv args with
  | ParseResult.exitVersion =>
      ⟨0, ShowVersionText ver gitCommit buildTime maintainer, ""⟩
  | ParseResult.exitHelp => ⟨0, "", ShowUsageText progName⟩
  | ParseResult.usageError _ => ⟨1, "", ShowUsageText progName⟩
  | ParseResult.configError msg => ⟨1, "", "Error: " ++ msg ++ "\n"⟩
  | ParseResult.ok cfg =>
    match NewApp loadClient cfg with
    | Except.error e => ⟨1, "", "Failed to initialize application: " ++ e ++ "\n"⟩
    | Except.ok app =>
      match app.GetSecret with
      | Except.error e => ⟨1, "", "Failed to get secret: " ++ e ++ "\n"⟩
      | Except.ok secretValue => ⟨0, FormatOutput unmarshal secretValue, ""⟩

/-- FormatOutput returns its argument whatever the parse attempt does. -/
theorem formatOutput_id {α : Type} (unmarshal : String → Except String α)
    (s : String) : FormatOutput unmarshal s = s := by
  unfold FormatOutput
  cases unmarshal s <;> rfl

/-- Claim C1: FormatOutput is the identity on every string, for every
possible outcome of the internal JSON parse attempt (any parsed type,
any parser behaviour — empty string, malformed fragments, arrays,
objects, plain text are all instances); it is a pure total function and
the parse attempt never changes the returned value. -/
theorem C1_formatOutput_identity {α : Type} (unmarshal : String → Except String α)
    (x : String) : FormatOutput unmarshal x = x :=
  formatOutput_id unmarshal x

/-- When the first positional token is none of the four informational
flags, ParseArgs on at least two tokens reduces to the region logic:
the region is the third token when present, else the environment value,
and an empty region is the configuration error. -/
theorem parseArgs_cons (env prog a : String) (rest : List String)
    (h1 : a ≠ "--version") (h2 : a ≠ "-v") (h3 : a ≠ "--help") (h4 : a ≠ "-h") :
    ParseArgs env (prog :: a :: rest) =
      (if rest.headD env = "" then ParseResult.configError regionErrorMsg
       else ParseResult.ok ⟨a, rest.headD env⟩) := by
  cases rest <;> simp [ParseArgs, h1, h2, h3, h4, List.headD]

/-- Claim C2 counterexample: an argument vector of the form
[prog, secretId, region] whose secretId token happens to be "--version"
does not parse to Config with that secret id and region — ParseArgs
short-circuits into the version display and process exit instead. -/
theorem C2_counterexample :
    ParseArgs "" ["prog", "--version", "us-east-1"] ≠
      ParseResult.ok ⟨"--version", "us-east-1"⟩ := by decide

/-- Claim C2 (amended): for every argument vector [prog, secretId] or
[prog, secretId, region] whose secretId is not one of the informational
flags --version, -v, --help, -h, and whose supplied region (the second
positional argument if present, else the AWS_REGION environment value)
is non-empty, ParseArgs succeeds with Config secretId region; the
argument value is the one returned when both sources are present. -/
theorem C2_parseArgs_success (env prog sid : String)
    (hflag : sid ≠ "--version" ∧ sid ≠ "-v" ∧ sid ≠ "--help" ∧ sid ≠ "-h") :
    (env ≠ "" → ParseArgs env [prog, sid] = ParseResult.ok ⟨sid, env⟩) ∧
    (∀ reg : String, reg ≠ "" →
      ParseArgs env [prog, sid, reg] = ParseResult.ok ⟨sid, reg⟩) := by
  obtain ⟨h1, h2, h3, h4⟩ := hflag
  refine ⟨fun henv => ?_, fun reg hreg => ?_⟩
  · rw [parseArgs_cons env prog sid [] h1 h2 h3 h4]
    simp [List.headD, henv]
  · rw [parseArgs_cons env prog sid [reg] h1 h2 h3 h4]
    simp [List.headD, hreg]

/-- Claim C2 witness: both successful shapes at concrete inputs, the
second also showing the argument overriding the environment value. -/
theorem C2_parseArgs_success_witness :
    ParseArgs "us-east-1" ["prog", "my-secret"] =
      ParseResult.ok ⟨"my-secret", "us-east-1"⟩ ∧
    ParseArgs "us-east-1" ["prog", "my-secret", "eu-west-1"] =
      ParseResult.ok ⟨"my-secret", "eu-west-1"⟩ := by
  have h := C2_parseArgs_success "us-east-1" "prog" "my-secret"
    ⟨by decide, by decide, by decide, by decide⟩
  exact ⟨h.1 (by decide), h.2 "eu-west-1" (by decide)⟩

/-- Claim C3: on fewer than two tokens ParseArgs fails with the usage
error, and the process exits 1 with the usage text on standard error
and nothing on standard output, whatever the environment, client and
parser parameters are (in particular no client call is made). -/
theorem C3_usage_error {α : Type}
    (ver gitCommit buildTime maintainer awsRegionEnv : String)
    (args : List String)
    (loadClient : Config → Except String SecretsManagerClient)
    (unmarshal : String → Except String α)
    (hlen : args.length < 2) :
    ParseArgs awsRegionEnv args = ParseResult.usageError "insufficient arguments" ∧
    runMain ver gitCommit buildTime maintainer awsRegionEnv args
        loadClient unmarshal =
      ⟨1, "", ShowUsageText (args.headD "")⟩ := by
  match args with
  | [] => exact ⟨rfl, rfl⟩
  | [_] => exact ⟨rfl, rfl⟩
  | _ :: _ :: _ => simp at hlen; omega

/-- Claim C3 witness: the single-token vector at concrete parameters. -/
theorem C3_usage_error_witness :
    ParseArgs "" ["prog"] = ParseResult.usageError "insufficient arguments" ∧
    runMain "dev" "unknown" "unknown" "Nicolas HYPOLITE" "" ["prog"]
        (fun _ => Except.error "no client")
        (fun _ => (Except.error "not json" : Except String Unit)) =
      ⟨1, "", ShowUsageText "prog"⟩ :=
  C3_usage_error "dev" "unknown" "unknown" "Nicolas HYPOLITE" "" ["prog"]
    (fun _ => Except.error "no client")
    (fun _ => (Except.error "not json" : Except String Unit)) (by decide)

/-- Claim C4 counterexample: the two-token vector [prog, -h] with the
region environment variable empty does not fail with the configuration
error — ParseArgs short-circuits into the help display and a successful
process exit instead. -/
theorem C4_counterexample :
    ParseArgs "" ["prog", "-h"] = ParseResult.exitHelp ∧
    ParseArgs "" ["prog", "-h"] ≠ ParseResult.configError regionErrorMsg := by
  exact ⟨rfl, by decide⟩

/-- Claim C4 (amended): for every two-token vector [prog, secretId]
whose secretId is not one of the informational flags --version, -v,
--help, -h, with the AWS_REGION environment variable unset or empty,
ParseArgs fails with the configuration error stating that the region
must come from the environment variable or the second argument. -/
theorem C4_region_missing (prog sid : String)
    (hflag : sid ≠ "--version" ∧ sid ≠ "-v" ∧ sid ≠ "--help" ∧ sid ≠ "-h") :
    ParseArgs "" [prog, sid] = ParseResult.configError regionErrorMsg := by
  obtain ⟨h1, h2, h3, h4⟩ := hflag
  rw [parseArgs_cons "" prog sid [] h1 h2 h3 h4]
  simp [List.headD]

/-- Claim C4 witness: the configuration error at a concrete input. -/
theorem C4_region_missing_witness :
    ParseArgs "" ["prog", "my-secret"] = ParseResult.configError regionErrorMsg :=
  C4_region_missing "prog" "my-secret" ⟨by decide, by decide, by decide, by decide⟩

/-- Claim C7 counterexample: an empty first positional argument is
passed through verbatim, so ParseArgs does return a Config whose
SecretID is the empty string. -/
theorem C7_counterexample :
    ParseArgs "" ["prog", "", "eu-west-1"] = ParseResult.ok ⟨"", "eu-west-1"⟩ ∧
    (Config.mk "" "eu-west-1").SecretID = "" := ⟨rfl, rfl⟩

/-- Claim C7 (amended): every Config that ParseArgs returns has a
non-empty Region (the empty region is a terminal configuration error);
the SecretID is the first positional argument taken verbatim and may be
the empty string, since no emptiness check is applied to it. -/
theorem C7_region_nonempty (awsRegionEnv : String) (args : List String)
    (cfg : Config) (h : ParseArgs awsRegionEnv args = ParseResult.ok cfg) :
    cfg.Region ≠ "" := by
  match args with
  | [] => simp [ParseArgs] at h
  | [_] => simp [ParseArgs] at h
  | prog :: a :: rest =>
    rcases eq_or_ne a "--version" with rfl | n1
    · simp [ParseArgs] at h
    rcases eq_or_ne a "-v" with rfl | n2
    · simp [ParseArgs] at h
    rcases eq_or_ne a "--help" with rfl | n3
    · simp [ParseArgs] at h
    rcases eq_or_ne a "-h" with rfl | n4
    · simp [ParseArgs] at h
    rw [parseArgs_cons awsRegionEnv prog a rest n1 n2 n3 n4] at h
    split at h
    · simp at h
    · rename_i hreg
      obtain rfl := (ParseResult.ok.injEq _ _).mp h
      exact hreg

/-- Claim C7 witness: the region non-emptiness at a concrete parse. -/
theorem C7_region_nonempty_witness :
    ParseArgs "" ["prog", "my-secret", "us-east-1"] =
      ParseResult.ok ⟨"my-secret", "us-east-1"⟩ ∧
    (Config.mk "my-secret" "us-east-1").Region ≠ "" :=
  ⟨rfl, C7_region_nonempty "" ["prog", "my-secret", "us-east-1"]
    ⟨"my-secret", "us-east-1"⟩ rfl⟩

/-- Claim C5: when the first positional token is one of --version, -v,
--help, -h, the process terminates with exit code 0, printing the
version text to standard output (version flags) or the usage text to
standard error (help flags); the outcome is identical for every client
constructor and every JSON parser, so no network access is attempted or
observable — a short-circuit, not an error path. -/
theorem C5_info_flags {α : Type}
    (ver gitCommit buildTime maintainer awsRegionEnv prog arg1 : String)
    (rest : List String)
    (loadClient : Config → Except String SecretsManagerClient)
    (unmarshal : String → Except String α)
    (hflag : arg1 = "--version" ∨ arg1 = "-v" ∨ arg1 = "--help" ∨ arg1 = "-h") :
    (runMain ver gitCommit buildTime maintainer awsRegionEnv
        (prog :: arg1 :: rest) loadClient unmarshal).exitCode = 0 ∧
    ((arg1 = "--version" ∨ arg1 = "-v") →
      runMain ver gitCommit buildTime maintainer awsRegionEnv
          (prog :: arg1 :: rest) loadClient unmarshal =
        ⟨0, ShowVersionText ver gitCommit buildTime maintainer, ""⟩) ∧
    ((arg1 = "--help" ∨ arg1 = "-h") →
      runMain ver gitCommit buildTime maintainer awsRegionEnv
          (prog :: arg1 :: rest) loadClient unmarshal =
        ⟨0, "", ShowUsageText prog⟩) ∧
    (∀ (β : Type) (loadClient2 : Config → Except String SecretsManagerClient)
        (unmarshal2 : String → Except String β),
      runMain ver gitCommit buildTime maintainer awsRegionEnv
          (prog :: arg1 :: rest) loadClient2 unmarshal2 =
        runMain ver gitCommit buildTime maintainer awsRegionEnv
          (prog :: arg1 :: rest) loadClient unmarshal) := by
  rcases hflag with rfl | rfl | rfl | rfl
  · exact ⟨by simp [runMain, ParseArgs], fun _ => by simp [runMain, ParseArgs],
      fun h2 => by rcases h2 with h2 | h2 <;> simp at h2,
      fun β lc2 um2 => by simp [runMain, ParseArgs]⟩
  · exact ⟨by simp [runMain, ParseArgs], fun _ => by simp [runMain, ParseArgs],
      fun h2 => by rcases h2 with h2 | h2 <;> simp at h2,
      fun β lc2 um2 => by simp [runMain, ParseArgs]⟩
  · exact ⟨by simp [runMain, ParseArgs],
      fun h2 => by rcases h2 with h2 | h2 <;> simp at h2,
      fun _ => by simp [runMain, ParseArgs],
      fun β lc2 um2 => by simp [runMain, ParseArgs]⟩
  · exact ⟨by simp [runMain, ParseArgs],
      fun h2 => by rcases h2 with h2 | h2 <;> simp at h2,
      fun _ => by simp [runMain, ParseArgs],
      fun β lc2 um2 => by simp [runMain, ParseArgs]⟩

/-- Claim C5 witness: a concrete --version invocation exits 0, prints
exactly the version text to standard output, and gives the same result
under a different client constructor and parser. -/
theorem C5_info_flags_witness :
    (runMain "dev" "unknown" "unknown" "" "" ["prog", "--version"]
        (fun _ => Except.error "no client")
        (fun _ => (Except.error "not json" : Except String Unit))).exitCode = 0 ∧
    runMain "dev" "unknown" "unknown" "" "" ["prog", "--version"]
        (fun _ => Except.error "no client")
        (fun _ => (Except.error "not json" : Except String Unit)) =
      ⟨0, ShowVersionText "dev" "unknown" "unknown" "", ""⟩ ∧
    runMain "dev" "unknown" "unknown" "" "" ["prog", "--version"]
        (fun _ => Except.ok (fun _ => Except.ok ⟨some "leak"⟩))
        (fun _ => (Except.ok 0 : Except String Nat)) =
      runMain "dev" "unknown" "unknown" "" "" ["prog", "--version"]
        (fun _ => Except.error "no client")
        (fun _ => (Except.error "not json" : Except String Unit)) :=
  have h := C5_info_flags "dev" "unknown" "unknown" "" "" "prog" "--version" []
    (fun _ => Except.error "no client")
    (fun _ => (Except.error "not json" : Except String Unit)) (Or.inl rfl)
  ⟨h.1, h.2.1 (Or.inl rfl),
    h.2.2.2 Nat (fun _ => Except.ok (fun _ => Except.ok ⟨some "leak"⟩))
      (fun _ => (Except.ok 0 : Except String Nat))⟩

/-- A transport-error message produced by GetSecret never coincides with
its missing-string message, whatever the wrapped transport error is. -/
theorem fetch_msg_distinct (e : String) :
    ("failed to get secret value: " ++ e) ≠
      "secret does not contain a string value" := by
  intro h
  have hd := congrArg String.data h
  rw [String.data_append] at hd
  have hh := congrArg List.head? hd
  simp at hh

/-- Claim C6 counterexample: a backing store answering with a present
but empty secret string is a success of GetSecret, returning the empty
string, not the FetchError that the claim requires for an empty secret
string (an Except.ok is never an Except.error). -/
theorem C6_counterexample :
    App.GetSecret ⟨fun _ => Except.ok ⟨some ""⟩, ⟨"my-secret", "us-east-1"⟩⟩ =
      Except.ok "" ∧
    (Except.ok "" : Except String String) ≠
      Except.error "secret does not contain a string value" :=
  ⟨rfl, fun h => Except.noConfusion h⟩

/-- Claim C6 (amended): GetSecret issues exactly one client call per
invocation (a counting client sees its counter go from n to n + 1, and
the monadic call-site presentation agrees with GetSecret itself); a
store answer carrying no secret string (a nil SecretString) is mapped
to the missing-string fetch error, while a transport failure is
returned wrapped, and the two error messages are distinguishable; an
empty but present secret string is returned as a success, not an
error. -/
theorem C6_getSecret_one_call_and_errors
    (client : SecretsManagerClient) (cfg : Config) (n : Nat)
    (e : String) (app : App) :
    (StateT.run (GetSecretValueM (countedCall client) cfg) n).2 = n + 1 ∧
    @GetSecretValueM Id _ (fun i => app.Client i) app.Config = app.GetSecret ∧
    App.GetSecret ⟨fun _ => Except.error e, cfg⟩ =
      Except.error ("failed to get secret value: " ++ e) ∧
    App.GetSecret ⟨fun _ => Except.ok ⟨none⟩, cfg⟩ =
      Except.error "secret does not contain a string value" ∧
    App.GetSecret ⟨fun _ => Except.ok ⟨some ""⟩, cfg⟩ = Except.ok "" ∧
    ("failed to get secret value: " ++ e) ≠
      "secret does not contain a string value" := by
  refine ⟨?_, ?_, rfl, rfl, rfl, fetch_msg_distinct e⟩
  · cases hc : client ⟨cfg.SecretID⟩ with
    | error e2 =>
      simp [GetSecretValueM, countedCall, StateT.run, bind, StateT.bind, hc,
        pure, StateT.pure]
    | ok out =>
      cases out with
      | mk ss =>
        cases ss <;>
          simp [GetSecretValueM, countedCall, StateT.run, bind, StateT.bind, hc,
            pure, StateT.pure]
  · rfl

/-- Claim C8: whenever parsing succeeds with some configuration, the
client constructor yields a client, and that client answers the
configured secret id with a present string payload v, the process
writes exactly v to standard output (no added formatting or newline,
whatever the JSON parse attempt does), writes nothing to standard
error, and exits 0. -/
theorem C8_success_output {α : Type}
    (ver gitCommit buildTime maintainer awsRegionEnv : String)
    (args : List String) (cfg : Config) (client : SecretsManagerClient)
    (v : String)
    (loadClient : Config → Except String SecretsManagerClient)
    (unmarshal : String → Except String α)
    (hparse : ParseArgs awsRegionEnv args = ParseResult.ok cfg)
    (hload : loadClient cfg = Except.ok client)
    (hclient : client ⟨cfg.SecretID⟩ = Except.ok ⟨some v⟩) :
    runMain ver gitCommit buildTime maintainer awsRegionEnv args
        loadClient unmarshal = ⟨0, v, ""⟩ := by
  simp [runMain, hparse, NewApp, hload, App.GetSecret, hclient, formatOutput_id]

/-- Claim C8 witness: a client double returning a JSON-looking value
puts exactly that value on standard output with exit code 0. -/
theorem C8_success_output_witness :
    runMain "dev" "unknown" "unknown" "" "eu-west-1"
        ["prog", "json-secret"]
        (fun _ => Except.ok
          (fun _ => Except.ok ⟨some "\x7b\"username\":\"admin\"\x7d"⟩))
        (fun _ => (Except.ok 0 : Except String Nat)) =
      ⟨0, "\x7b\"username\":\"admin\"\x7d", ""⟩ :=
  C8_success_output "dev" "unknown" "unknown" "" "eu-west-1"
    ["prog", "json-secret"] ⟨"json-secret", "eu-west-1"⟩
    (fun _ => Except.ok ⟨some "\x7b\"username\":\"admin\"\x7d"⟩)
    "\x7b\"username\":\"admin\"\x7d"
    (fun _ => Except.ok (fun _ => Except.ok ⟨some "\x7b\"username\":\"admin\"\x7d"⟩))
    (fun _ => (Except.ok 0 : Except String Nat))
    rfl rfl rfl

/-- Claim C9 counterexample: a --version invocation whose client double
only returns errors exits 0 with a non-empty standard output (the
version text), so the stated dichotomy — either the full secret value
with exit 0, or an empty standard output with a non-zero exit — fails
on informational-flag invocations. -/
theorem C9_counterexample :
    runMain "dev" "unknown" "unknown" "" "us-east-1" ["prog", "--version"]
        (fun _ => Except.error "transport down")
        (fun _ => (Except.error "not json" : Except String Unit)) =
      ⟨0, "aws-ssm version dev\n", ""⟩ := by
  simp [runMain, ParseArgs, ShowVersionText]

/-- Claim C9 (amended): for every invocation that is not an
informational-flag invocation, there is no partial-success mode: either
the process exits 0 and its standard output is exactly the string
payload the client returned for the parsed configuration's secret id,
or the process exits non-zero and its standard output is empty — in
particular a client error or a payload-free response always leads to a
non-zero exit with empty standard output. -/
theorem C9_no_partial_success {α : Type}
    (ver gitCommit buildTime maintainer awsRegionEnv : String)
    (args : List String)
    (loadClient : Config → Except String SecretsManagerClient)
    (unmarshal : String → Except String α)
    (hflag : ∀ prog a rest, args = prog :: a :: rest →
      a ≠ "--version" ∧ a ≠ "-v" ∧ a ≠ "--help" ∧ a ≠ "-h") :
    ((runMain ver gitCommit buildTime maintainer awsRegionEnv args
        loadClient unmarshal).exitCode = 0 ∧
      ∃ cfg client,
        ParseArgs awsRegionEnv args = ParseResult.ok cfg ∧
        loadClient cfg = Except.ok client ∧
        client ⟨cfg.SecretID⟩ = Except.ok
          ⟨some (runMain ver gitCommit buildTime maintainer awsRegionEnv args
            loadClient unmarshal).stdout⟩) ∨
    ((runMain ver gitCommit buildTime maintainer awsRegionEnv args
        loadClient unmarshal).exitCode ≠ 0 ∧
      (runMain ver gitCommit buildTime maintainer awsRegionEnv args
        loadClient unmarshal).stdout = "") := by
  match args with
  | [] => exact Or.inr ⟨by simp [runMain, ParseArgs], by simp [runMain, ParseArgs]⟩
  | [_] => exact Or.inr ⟨by simp [runMain, ParseArgs], by simp [runMain, ParseArgs]⟩
  | prog :: a :: rest =>
    obtain ⟨h1, h2, h3, h4⟩ := hflag prog a rest rfl
    have hp := parseArgs_cons awsRegionEnv prog a rest h1 h2 h3 h4
    generalize rest.headD awsRegionEnv = reg at hp
    by_cases hreg : reg = ""
    · rw [if_pos hreg] at hp
      exact Or.inr ⟨by simp [runMain, hp], by simp [runMain, hp]⟩
    · rw [if_neg hreg] at hp
      cases hload : loadClient ⟨a, reg⟩ with
      | error e =>
        exact Or.inr ⟨by simp [runMain, hp, NewApp, hload],
          by simp [runMain, hp, NewApp, hload]⟩
      | ok client =>
        cases hc : client ⟨a⟩ with
        | error e =>
          exact Or.inr
            ⟨by simp [runMain, hp, NewApp, hload, App.GetSecret, hc],
             by simp [runMain, hp, NewApp, hload, App.GetSecret, hc]⟩
        | ok out =>
          cases out with
          | mk ss =>
            cases ss with
            | none =>
              exact Or.inr
                ⟨by simp [runMain, hp, NewApp, hload, App.GetSecret, hc],
                 by simp [runMain, hp, NewApp, hload, App.GetSecret, hc]⟩
            | some s =>
              refine Or.inl ⟨by simp [runMain, hp, NewApp, hload, App.GetSecret, hc],
                ⟨a, reg⟩, client, hp, hload, ?_⟩
              have hs : (runMain ver gitCommit buildTime maintainer awsRegionEnv
                  (prog :: a :: rest) loadClient unmarshal).stdout = s := by
                simp [runMain, hp, NewApp, hload, App.GetSecret, hc, formatOutput_id]
              rw [hs]
              exact hc

/-- Claim C9 witness: a concrete fetch-failure invocation (the client
double answers with a transport error) lands in the non-zero-exit,
empty-standard-output branch of the dichotomy. -/
theorem C9_no_partial_success_witness :
    ((runMain "dev" "unknown" "unknown" "" "us-east-1" ["prog", "my-secret"]
        errClientLoader notJsonUnmarshal).exitCode = 0 ∧
      ∃ cfg client,
        ParseArgs "us-east-1" ["prog", "my-secret"] = ParseResult.ok cfg ∧
        errClientLoader cfg = Except.ok client ∧
        client ⟨cfg.SecretID⟩ = Except.ok
          ⟨some (runMain "dev" "unknown" "unknown" "" "us-east-1"
            ["prog", "my-secret"] errClientLoader notJsonUnmarshal).stdout⟩) ∨
    ((runMain "dev" "unknown" "unknown" "" "us-east-1" ["prog", "my-secret"]
        errClientLoader notJsonUnmarshal).exitCode ≠ 0 ∧
      (runMain "dev" "unknown" "unknown" "" "us-east-1" ["prog", "my-secret"]
        errClientLoader notJsonUnmarshal).stdout = "") :=
  C9_no_partial_success "dev" "unknown" "unknown" "" "us-east-1"
    ["prog", "my-secret"] errClientLoader notJsonUnmarshal
    (by
      intro prog a rest h
      injection h with hp ht
      injection ht with ha hr
      subst ha
      exact ⟨by decide, by decide, by decide, by decide⟩)

/-- Claim C10: ParseArgs ignores every token after the third: parsing
any extension of a three-token vector gives exactly the result of
parsing the first three tokens alone. -/
theorem C10_extra_args_ignored (env a0 a1 a2 : String) (rest : List String) :
    ParseArgs env (a0 :: a1 :: a2 :: rest) = ParseArgs env [a0, a1, a2] := rfl

end AwsSsm
